import Mathlib

/-!
Verification development for the steamgrid image pipeline
(`src/steamgrid.go`).  The orchestrator `startApplication` is embedded
shallowly: per-game processing is a pure function over a `Game` record and a
`SummaryState`, filesystem effects are recorded as an explicit event trace,
and the external collaborators that are not part of the source file
(`DownloadImage`, `BackupGame`, the overlay compositor, `os.RemoveAll`,
`os.Rename`, ...) are supplied through an `Env` of oracles, except where the
specification pins their behaviour down (then they are modelled from the
spec, and marked as such).  A fatal `errorAndExit` call is modelled as an
`Except`-style error carrying the trace of events emitted before the abort.
-/

/-- Raw encoded image bytes; `none` models a Go `nil` slice (absent image). -/
abbrev Bytes := List Nat

/-- The `Game` record of the data model: identifier, display name, category,
clean and overlaid image bytes (absent = Go `nil`), file extension and
provenance tag. -/
structure Game where
  ID : String
  Name : String
  Category : String
  CleanImageBytes : Option Bytes
  OverlayImageBytes : Option Bytes
  ImageExt : String
  ImageSource : String
deriving Repr, DecidableEq

/-- The accumulating summary of `startApplication`: counters plus the four
summary lists (`notFounds`, `searchedGames`, `failedGames`, `errorMessages`),
exactly the mutable locals declared at `src/steamgrid.go:56-61`. -/
structure SummaryState where
  nOverlaysApplied : Nat
  nDownloaded : Nat
  notFounds : List Game
  searchedGames : List Game
  failedGames : List Game
  errorMessages : List String
deriving Repr, DecidableEq

/-- The empty summary at the start of the run. -/
def SummaryState.init : SummaryState :=
  { nOverlaysApplied := 0, nDownloaded := 0, notFounds := [],
    searchedGames := [], failedGames := [], errorMessages := [] }

/-- Filesystem effects performed by the orchestrator, recorded in order.
`backupWrite` is the clean-image backup written by `BackupGame`;
`writeFile` is the final per-game image write (with its success flag,
since a failed write is only logged); `removeAll` and `rename` are the
directory-swap steps.  A failed `mkdirAll`/`removeAll`/`rename` emits no
event (the run aborts instead). -/
inductive FsEvent where
  | mkdirAll (path : String)
  | backupWrite (path : String) (bytes : Option Bytes)
  | writeFile (path : String) (bytes : Option Bytes) (ok : Bool)
  | removeAll (path : String)
  | rename (src dst : String)
deriving Repr, DecidableEq

/-- Events a single game may emit: only staging-file writes, never a
directory removal or rename. -/
def FsEvent.isGameWrite : FsEvent → Bool
  | .backupWrite _ _ => true
  | .writeFile _ _ _ => true
  | _ => false

/-- Oracles for the external collaborators of `startApplication` that are not
part of `src/steamgrid.go`.  `download` returns the updated game and the
`fromSearch` flag, or the transport error `DownloadImage` reported;
`compose` is the overlay compositing kernel used by `ApplyOverlay`;
`backup` is `BackupGame` (success writes the clean backup); the booleans
decide success of `ioutil.WriteFile`, `os.RemoveAll`, `os.Rename` and
`os.MkdirAll`. -/
structure Env where
  download : String → Game → Except String (Bool × Game)
  compose : Bytes → Bytes → Except String Bytes
  backup : String → Game → Except String Unit
  writeOk : String → Option Bytes → Bool
  removeOk : String → Bool
  renameOk : String → String → Bool
  mkdirOk : String → Bool

/-- A profile grid directory as built at `src/steamgrid.go:65`. -/
def gridDirOf (userDir : String) : String := userDir ++ "/config/grid"

/-- The staging directory name, `gridDir + " new"` (`src/steamgrid.go:80`). -/
def newGridDirOf (gridDir : String) : String := gridDir ++ " new"

/-- Path of the clean-image backup written by `BackupGame`.
Modelled from the spec: `BackupGame` is not under src/; per the spec it
writes CleanImageBytes into the conventional originals subfolder of the
staging directory, keyed by game ID. -/
def backupPath (newGridDir : String) (g : Game) : String :=
  newGridDir ++ "/originals/" ++ g.ID ++ g.ImageExt

/-- ASCII lowercase of a string, used for the case-insensitive category
keys of the overlay mapping. -/
def lowerKey (s : String) : String := ⟨s.data.map Char.toLower⟩

/-- Case-insensitive overlay lookup: overlay keys are stored lowercased. -/
def overlayFor (overlays : List (String × Bytes)) (category : String) :
    Option Bytes :=
  overlays.lookup (lowerKey category)

/-- Modelled from the spec: `ApplyOverlay` is not under src/.  Per the spec
it is a no-op (returns success, leaves OverlayImageBytes untouched) when the
category has no entry in the overlay mapping; otherwise it composites the
overlay onto CleanImageBytes and stores the result in OverlayImageBytes, and
a decode/compose failure is returned as an error without mutating the game. -/
def ApplyOverlay (compose : Bytes → Bytes → Except String Bytes)
    (overlays : List (String × Bytes)) (game : Game) : Except String Game :=
  match overlayFor overlays game.Category with
  | none => .ok game
  | some ov =>
    match game.CleanImageBytes with
    | none => .error "image decode failed"
    | some clean =>
      match compose clean ov with
      | .error e => .error e
      | .ok out => .ok { game with OverlayImageBytes := some out }

/-- The download stage of the loop body (`src/steamgrid.go:102-119`): skipped
when ImageSource is already set; a transport error is fatal; a still-empty
ImageSource after a successful call appends the game to `notFounds` and
skips the game (`some` result is the game to keep processing, `none` means
skip); otherwise `nDownloaded` is bumped and a search hit is appended to
`searchedGames`. -/
def downloadStage (env : Env) (newGridDir : String) (st : SummaryState)
    (game : Game) : Except String (SummaryState × Option Game) :=
  if game.ImageSource = "" then
    match env.download newGridDir game with
    | .error e => .error e
    | .ok (fromSearch, g1) =>
      if g1.ImageSource = "" then
        .ok ({ st with notFounds := st.notFounds ++ [g1] }, none)
      else
        let st1 := { st with nDownloaded := st.nDownloaded + 1 }
        let st2 :=
          if fromSearch then
            { st1 with searchedGames := st1.searchedGames ++ [g1] }
          else st1
        .ok (st2, some g1)
  else
    .ok (st, some game)

/-- The overlay stage of the loop body (`src/steamgrid.go:125-135`): an
`ApplyOverlay` error appends the game and the message to `failedGames` and
`errorMessages`; then a non-nil OverlayImageBytes bumps the counter, and a
nil one falls back to CleanImageBytes. -/
def overlayStage (env : Env) (overlays : List (String × Bytes))
    (st : SummaryState) (game : Game) : Game × SummaryState :=
  let step :=
    match ApplyOverlay env.compose overlays game with
    | .error e =>
        (game, { st with failedGames := st.failedGames ++ [game],
                         errorMessages := st.errorMessages ++ [e] })
    | .ok g1 => (g1, st)
  if step.1.OverlayImageBytes ≠ none then
    (step.1, { step.2 with nOverlaysApplied := step.2.nOverlaysApplied + 1 })
  else
    ({ step.1 with OverlayImageBytes := step.1.CleanImageBytes }, step.2)

/-- The save stage of the loop body (`src/steamgrid.go:140-151`): first
`BackupGame` (its failure is fatal), then the fatal empty-ImageExt check,
then the final image write, whose failure is only logged (recorded here as
the event success flag). -/
def saveStage (env : Env) (newGridDir : String) (g : Game) :
    Except (String × List FsEvent) (List FsEvent) :=
  match env.backup newGridDir g with
  | .error e => .error (e, [])
  | .ok _ =>
    let ev := FsEvent.backupWrite (backupPath newGridDir g) g.CleanImageBytes
    if g.ImageExt = "" then
      .error ("Failed to identify image format.", [ev])
    else
      let p := newGridDir ++ "/" ++ g.ID ++ g.ImageExt
      .ok [ev, FsEvent.writeFile p g.OverlayImageBytes
                 (env.writeOk p g.OverlayImageBytes)]

/-- Result of one iteration of the per-game loop: a fatal abort (with the
events emitted before it) or continuation to the next game, carrying the
published game (`none` when the game was skipped as not found), the updated
summary and the emitted events. -/
inductive GameStep where
  | fatal (msg : String) (tr : List FsEvent)
  | next (result : Option Game) (st : SummaryState) (tr : List FsEvent)
deriving Repr, DecidableEq

/-- The summary carried by a non-fatal step. -/
def GameStep.summary? : GameStep → Option SummaryState
  | .fatal _ _ => none
  | .next _ st _ => some st

/-- The events a loop iteration emitted, whether it aborted or not. -/
def GameStep.trace : GameStep → List FsEvent
  | .fatal _ tr => tr
  | .next _ _ tr => tr

/-- Whether the step aborted the run. -/
def GameStep.isFatal : GameStep → Bool
  | .fatal _ _ => true
  | .next _ _ _ => false

/-- One iteration of the per-game loop body (`src/steamgrid.go:88-152`). -/
def processGame (env : Env) (overlays : List (String × Bytes))
    (newGridDir : String) (st : SummaryState) (game : Game) : GameStep :=
  match downloadStage env newGridDir st game with
  | .error e => .fatal e []
  | .ok (st1, none) => .next none st1 []
  | .ok (st1, some g1) =>
    match saveStage env newGridDir (overlayStage env overlays st1 g1).1 with
    | .error (e, tr) => .fatal e tr
    | .ok tr =>
      .next (some (overlayStage env overlays st1 g1).1)
        (overlayStage env overlays st1 g1).2 tr

/-- The per-game loop over a list of games (`src/steamgrid.go:88-152`): a
fatal step stops the run at once, otherwise the updated summary flows into
the next game and the traces concatenate. -/
def processGames (env : Env) (overlays : List (String × Bytes))
    (newGridDir : String) :
    SummaryState → List Game →
      Except (String × List FsEvent) (SummaryState × List FsEvent)
  | st, [] => .ok (st, [])
  | st, g :: rest =>
    match processGame env overlays newGridDir st g with
    | .fatal e tr => .error (e, tr)
    | .next _ st1 tr =>
      match processGames env overlays newGridDir st1 rest with
      | .error (e, tr2) => .error (e, tr ++ tr2)
      | .ok (st2, tr2) => .ok (st2, tr ++ tr2)

/-- One user profile (`src/steamgrid.go:63-167`): create the staging
directory with its originals subfolder, process every game, then remove the
live grid directory and rename the staging directory into its place.  The
games list is the profile library after `LoadExisting` seeded it. -/
def processUser (env : Env) (overlays : List (String × Bytes))
    (st : SummaryState) (gridDir : String) (games : List Game) :
    Except (String × List FsEvent) (SummaryState × List FsEvent) :=
  if env.mkdirOk (newGridDirOf gridDir ++ "/originals") then
    match processGames env overlays (newGridDirOf gridDir) st games with
    | .error (e, tr) =>
      .error (e, FsEvent.mkdirAll (newGridDirOf gridDir ++ "/originals") :: tr)
    | .ok (st1, tr) =>
      if env.removeOk gridDir then
        if env.renameOk (newGridDirOf gridDir) gridDir then
          .ok (st1,
            FsEvent.mkdirAll (newGridDirOf gridDir ++ "/originals") :: tr ++
              [FsEvent.removeAll gridDir,
               FsEvent.rename (newGridDirOf gridDir) gridDir])
        else
          .error ("Failed to move new grid dir to correct location:",
            FsEvent.mkdirAll (newGridDirOf gridDir ++ "/originals") :: tr ++
              [FsEvent.removeAll gridDir])
      else
        .error ("Failed to remove old directory:",
          FsEvent.mkdirAll (newGridDirOf gridDir ++ "/originals") :: tr)
  else
    .error ("Failed to create new empty grid:", [])

/-- The whole run over every user profile (`src/steamgrid.go:63-167`); each
user is a pair of the live grid directory and the games of that profile. -/
def processUsers (env : Env) (overlays : List (String × Bytes)) :
    SummaryState → List (String × List Game) →
      Except (String × List FsEvent) (SummaryState × List FsEvent)
  | st, [] => .ok (st, [])
  | st, (gridDir, games) :: rest =>
    match processUser env overlays st gridDir games with
    | .error e => .error e
    | .ok (st1, tr) =>
      match processUsers env overlays st1 rest with
      | .error (e, tr2) => .error (e, tr ++ tr2)
      | .ok (st2, tr2) => .ok (st2, tr ++ tr2)

/-! Concrete test fixtures used by the closed evaluation theorems below. -/

/-- Environment in which every external operation succeeds and the download
oracle resolves every game through the official catalog. -/
def envOk : Env :=
  { download := fun _ g =>
      .ok (false, { g with ImageSource := "official",
                           CleanImageBytes := some [1, 2], ImageExt := ".jpg" }),
    compose := fun clean ov => .ok (clean ++ ov),
    backup := fun _ _ => .ok (),
    writeOk := fun _ _ => true,
    removeOk := fun _ => true,
    renameOk := fun _ _ => true,
    mkdirOk := fun _ => true }

/-- A single overlay asset, keyed by the lowercased category `indie`. -/
def ovs : List (String × Bytes) := [("indie", [9])]

/-- A game with no image yet (fresh library entry, download needed). -/
def gFresh : Game :=
  { ID := "42", Name := "Foo", Category := "Indie", CleanImageBytes := none,
    OverlayImageBytes := none, ImageExt := "", ImageSource := "" }

/-- A game whose clean image was already recovered by `LoadExisting`. -/
def gLoaded : Game :=
  { ID := "7", Name := "Bar", Category := "Action",
    CleanImageBytes := some [3, 4], OverlayImageBytes := none,
    ImageExt := ".png", ImageSource := "loaded from file" }

/-- A game reaching the publish step with an empty image extension. -/
def gNoExt : Game :=
  { ID := "9", Name := "Baz", Category := "Action",
    CleanImageBytes := some [5], OverlayImageBytes := none,
    ImageExt := "", ImageSource := "loaded from file" }

/-- Environment whose download oracle reports a transport error. -/
def envDlErr : Env :=
  { envOk with download := fun _ _ => .error "net timeout" }

/-- Environment whose download oracle finds no image (returns the game with
ImageSource still empty). -/
def envNF : Env :=
  { envOk with download := fun _ g => .ok (false, g) }

/-! Theorems, one per claim of the specification, with helper lemmas. -/

/-- Unfolding equation for `processGames` on a nonempty game list. -/
theorem processGames_cons (env : Env) (overlays : List (String × Bytes))
    (newGridDir : String) (st : SummaryState) (g : Game) (rest : List Game) :
    processGames env overlays newGridDir st (g :: rest) =
      match processGame env overlays newGridDir st g with
      | .fatal e tr => .error (e, tr)
      | .next _ st1 tr =>
        match processGames env overlays newGridDir st1 rest with
        | .error (e, tr2) => .error (e, tr ++ tr2)
        | .ok (st2, tr2) => .ok (st2, tr ++ tr2) := rfl

/-- C4: if `DownloadImage` returns a transport error, the whole run is
aborted immediately through the fatal-error path: the profile run ends with
exactly that error, no staging file of the failing game is written, and the
remaining games (`rest`) are never processed — the result does not depend on
them. -/
theorem C4_download_error_aborts_run (env : Env)
    (overlays : List (String × Bytes)) (st : SummaryState)
    (gridDir msg : String) (g : Game) (rest : List Game)
    (hMk : env.mkdirOk (newGridDirOf gridDir ++ "/originals") = true)
    (hSrc : g.ImageSource = "")
    (hDl : env.download (newGridDirOf gridDir) g = .error msg) :
    processUser env overlays st gridDir (g :: rest) =
      .error (msg, [FsEvent.mkdirAll (newGridDirOf gridDir ++ "/originals")]) := by
  have hGame : processGame env overlays (newGridDirOf gridDir) st g =
      .fatal msg [] := by
    unfold processGame downloadStage
    simp [hSrc, hDl]
  have hGames : processGames env overlays (newGridDirOf gridDir) st (g :: rest) =
      .error (msg, []) := by
    unfold processGames
    rw [hGame]
  unfold processUser
  simp only [hMk, if_true]
  rw [hGames]

/-- Witness for C4 at a concrete environment and game list. -/
theorem C4_witness :
    processUser envDlErr ovs SummaryState.init "d/config/grid"
        [gFresh, gLoaded] =
      .error ("net timeout",
        [FsEvent.mkdirAll (newGridDirOf "d/config/grid" ++ "/originals")]) :=
  C4_download_error_aborts_run envDlErr ovs SummaryState.init "d/config/grid"
    "net timeout" gFresh [gLoaded] rfl rfl rfl

/-- C5: a game whose ImageSource is still empty after a successful
`DownloadImage` call is appended to the not-found list and skipped: the step
is not fatal, emits no filesystem event (no overlay, no staging file), and
the loop continues with the next game from the updated summary. -/
theorem C5_not_found_skips_and_continues (env : Env)
    (overlays : List (String × Bytes)) (newGridDir : String)
    (st : SummaryState) (g g1 : Game) (fromSearch : Bool) (rest : List Game)
    (hSrc : g.ImageSource = "")
    (hDl : env.download newGridDir g = .ok (fromSearch, g1))
    (hNF : g1.ImageSource = "") :
    processGame env overlays newGridDir st g =
      .next none { st with notFounds := st.notFounds ++ [g1] } [] ∧
    processGames env overlays newGridDir st (g :: rest) =
      processGames env overlays newGridDir
        { st with notFounds := st.notFounds ++ [g1] } rest := by
  have hGame : processGame env overlays newGridDir st g =
      .next none { st with notFounds := st.notFounds ++ [g1] } [] := by
    unfold processGame downloadStage
    simp [hSrc, hDl, hNF]
  refine ⟨hGame, ?_⟩
  rw [processGames_cons, hGame]
  simp only [List.nil_append]
  cases hres : processGames env overlays newGridDir
      { st with notFounds := st.notFounds ++ [g1] } rest with
  | error e => obtain ⟨a, b⟩ := e; rfl
  | ok p => obtain ⟨a, b⟩ := p; rfl

/-- Witness for C5 at a concrete environment and game list. -/
theorem C5_witness :
    processGame envNF ovs "N" SummaryState.init gFresh =
      .next none { SummaryState.init with notFounds := [gFresh] } [] ∧
    processGames envNF ovs "N" SummaryState.init [gFresh, gLoaded] =
      processGames envNF ovs "N"
        { SummaryState.init with notFounds := [gFresh] } [gLoaded] :=
  C5_not_found_skips_and_continues envNF ovs "N" SummaryState.init gFresh
    gFresh false [gLoaded] rfl rfl rfl

/-- A successful `ApplyOverlay` call preserves every field except possibly
OverlayImageBytes, and either leaves the game unchanged (no overlay entry)
or sets OverlayImageBytes to the composited bytes. -/
theorem ApplyOverlay_ok (compose : Bytes → Bytes → Except String Bytes)
    (overlays : List (String × Bytes)) (g g1 : Game)
    (h : ApplyOverlay compose overlays g = .ok g1) :
    g1.CleanImageBytes = g.CleanImageBytes ∧ g1.ImageExt = g.ImageExt ∧
      g1.ID = g.ID ∧ (g1 = g ∨ ∃ b, g1.OverlayImageBytes = some b) := by
  unfold ApplyOverlay at h
  split at h
  · cases h; exact ⟨rfl, rfl, rfl, Or.inl rfl⟩
  · split at h
    · cases h
    · split at h
      · cases h
      · cases h
        exact ⟨rfl, rfl, rfl, Or.inr ⟨_, rfl⟩⟩

/-- The overlay stage never touches the not-found, searched or downloaded
summary fields, and grows `failedGames` and `errorMessages` in lockstep. -/
theorem overlayStage_summary (env : Env) (overlays : List (String × Bytes))
    (st : SummaryState) (g : Game) :
    (overlayStage env overlays st g).2.notFounds = st.notFounds ∧
    (overlayStage env overlays st g).2.searchedGames = st.searchedGames ∧
    (overlayStage env overlays st g).2.nDownloaded = st.nDownloaded ∧
    (overlayStage env overlays st g).2.failedGames.length +
        st.errorMessages.length =
      (overlayStage env overlays st g).2.errorMessages.length +
        st.failedGames.length := by
  unfold overlayStage
  cases h : ApplyOverlay env.compose overlays g with
  | error e =>
    by_cases hb : (g.OverlayImageBytes ≠ none) <;>
      simp [hb, List.length_append] <;> omega
  | ok g1 =>
    by_cases hb : (g1.OverlayImageBytes ≠ none) <;> simp [hb] <;> omega

/-- The overlay stage preserves the clean bytes, the extension and the ID of
the game, and leaves OverlayImageBytes non-absent whenever the clean bytes
are non-absent. -/
theorem overlayStage_game (env : Env) (overlays : List (String × Bytes))
    (st : SummaryState) (g : Game) :
    (overlayStage env overlays st g).1.CleanImageBytes = g.CleanImageBytes ∧
    (overlayStage env overlays st g).1.ImageExt = g.ImageExt ∧
    (overlayStage env overlays st g).1.ID = g.ID ∧
    (g.CleanImageBytes ≠ none →
      (overlayStage env overlays st g).1.OverlayImageBytes ≠ none) := by
  unfold overlayStage
  cases h : ApplyOverlay env.compose overlays g with
  | error e =>
    by_cases hb : (g.OverlayImageBytes ≠ none) <;> simp [hb]
  | ok g1 =>
    obtain ⟨hC, hE, hI, _⟩ := ApplyOverlay_ok env.compose overlays g g1 h
    by_cases hb : (g1.OverlayImageBytes ≠ none) <;> simp [hb, hC, hE, hI]

/-- A successful save stage requires a non-empty extension and emits exactly
the backup write followed by the final image write. -/
theorem saveStage_ok_events (env : Env) (dir : String) (g : Game)
    (tr : List FsEvent) (h : saveStage env dir g = .ok tr) :
    g.ImageExt ≠ "" ∧
    tr = [FsEvent.backupWrite (backupPath dir g) g.CleanImageBytes,
          FsEvent.writeFile (dir ++ "/" ++ g.ID ++ g.ImageExt)
            g.OverlayImageBytes
            (env.writeOk (dir ++ "/" ++ g.ID ++ g.ImageExt)
              g.OverlayImageBytes)] := by
  unfold saveStage at h
  split at h
  · cases h
  · split at h
    · cases h
    · next hne => cases h; exact ⟨hne, rfl⟩

/-- A failed save stage emits either nothing (the backup itself failed) or
exactly the backup write (the fatal empty-extension check fired). -/
theorem saveStage_error_events (env : Env) (dir : String) (g : Game)
    (e : String) (tr : List FsEvent)
    (h : saveStage env dir g = .error (e, tr)) :
    tr = [] ∨
      (g.ImageExt = "" ∧ e = "Failed to identify image format." ∧
       tr = [FsEvent.backupWrite (backupPath dir g) g.CleanImageBytes]) := by
  unfold saveStage at h
  split at h
  · cases h; exact Or.inl rfl
  · split at h
    · next heq => cases h; exact Or.inr ⟨heq, rfl, rfl⟩
    · cases h

/-- Inversion of a successful download stage that keeps the game: either the
game already had an image source and passes through untouched, or it was
downloaded, in which case its ImageSource is non-empty and the failure,
message and not-found lists are unchanged. -/
theorem downloadStage_ok_some (env : Env) (dir : String)
    (st st1 : SummaryState) (g g1 : Game)
    (h : downloadStage env dir st g = .ok (st1, some g1)) :
    (g.ImageSource ≠ "" ∧ g1 = g ∧ st1 = st) ∨
    (g.ImageSource = "" ∧ g1.ImageSource ≠ "" ∧
      (∃ fs, env.download dir g = .ok (fs, g1)) ∧
      st1.failedGames = st.failedGames ∧
      st1.errorMessages = st.errorMessages ∧
      st1.notFounds = st.notFounds) := by
  unfold downloadStage at h
  split at h
  · next hsrc =>
    split at h
    · cases h
    · next fs g1x hcall =>
      split at h
      · cases h
      · next hfound =>
        cases h
        refine Or.inr ⟨hsrc, hfound, ⟨fs, hcall⟩, ?_⟩
        by_cases hfs : fs = true <;> simp [hfs]
  · next hsrc => cases h; exact Or.inl ⟨hsrc, rfl, rfl⟩

/-- Every event a single loop iteration emits, aborting or not, is a
staging-file write: a game never removes or renames a directory. -/
theorem processGame_trace_writes (env : Env) (overlays : List (String × Bytes))
    (dir : String) (st : SummaryState) (g : Game) :
    ∀ e ∈ (processGame env overlays dir st g).trace, e.isGameWrite = true := by
  intro e he
  unfold processGame at he
  cases hd : downloadStage env dir st g with
  | error msg => rw [hd] at he; simp [GameStep.trace] at he
  | ok p =>
    obtain ⟨st1, og⟩ := p
    rw [hd] at he
    cases og with
    | none => simp [GameStep.trace] at he
    | some g1 =>
      simp only [] at he
      cases hs : saveStage env dir (overlayStage env overlays st1 g1).1 with
      | error pe =>
        obtain ⟨msg, tr⟩ := pe
        rw [hs] at he
        simp [GameStep.trace] at he
        rcases saveStage_error_events _ _ _ _ _ hs with h0 | ⟨_, _, h1⟩
        · rw [h0] at he; simp at he
        · rw [h1] at he; simp at he; rw [he]; rfl
      | ok tr =>
        rw [hs] at he
        simp [GameStep.trace] at he
        obtain ⟨_, h1⟩ := saveStage_ok_events _ _ _ _ hs
        rw [h1] at he
        simp at he
        rcases he with he | he <;> rw [he] <;> rfl

/-- The trace of a games-loop or profile result, successful or aborted. -/
def runTrace :
    Except (String × List FsEvent) (SummaryState × List FsEvent) →
      List FsEvent
  | .error (_, tr) => tr
  | .ok (_, tr) => tr

/-- Every event the per-game loop emits, across all games and whether the
loop aborted or not, is a staging-file write. -/
theorem processGames_trace_writes (env : Env)
    (overlays : List (String × Bytes)) (dir : String) :
    ∀ (gs : List Game) (st : SummaryState),
      ∀ e ∈ runTrace (processGames env overlays dir st gs),
        e.isGameWrite = true := by
  intro gs
  induction gs with
  | nil => intro st e he; simp [processGames, runTrace] at he
  | cons g rest ih =>
    intro st e he
    rw [processGames_cons] at he
    cases hg : processGame env overlays dir st g with
    | fatal msg tr =>
      rw [hg] at he
      simp [runTrace] at he
      have h1 := processGame_trace_writes env overlays dir st g
      rw [hg] at h1
      exact h1 e (by simpa [GameStep.trace] using he)
    | next r st1 tr =>
      rw [hg] at he
      simp only [] at he
      have h1 := processGame_trace_writes env overlays dir st g
      rw [hg] at h1
      cases hr : processGames env overlays dir st1 rest with
      | error p =>
        obtain ⟨msg, tr2⟩ := p
        rw [hr] at he
        simp [runTrace] at he
        rcases he with he | he
        · exact h1 e (by simpa [GameStep.trace] using he)
        · have h2 := ih st1 e
          rw [hr] at h2
          exact h2 (by simpa [runTrace] using he)
      | ok p =>
        obtain ⟨st2, tr2⟩ := p
        rw [hr] at he
        simp [runTrace] at he
        rcases he with he | he
        · exact h1 e (by simpa [GameStep.trace] using he)
        · have h2 := ih st1 e
          rw [hr] at h2
          exact h2 (by simpa [runTrace] using he)

/-- C1: a game that reaches publication (the loop step returns a published
game rather than skipping it) has non-absent OverlayImageBytes after the
overlay stage — either `ApplyOverlay` set it or the orchestrator assigned it
CleanImageBytes — and the bytes carried by the staging-grid file write are
never absent.  The hypotheses are the `DownloadImage` contract and the data
invariant that a non-empty ImageSource comes with clean bytes. -/
theorem C1_published_image_never_absent (env : Env)
    (overlays : List (String × Bytes)) (dir : String) (st st2 : SummaryState)
    (g g2 : Game) (tr : List FsEvent)
    (hInv : g.ImageSource ≠ "" → g.CleanImageBytes ≠ none)
    (hDl : ∀ fs g1, env.download dir g = .ok (fs, g1) →
      g1.ImageSource ≠ "" → g1.CleanImageBytes ≠ none)
    (hStep : processGame env overlays dir st g = .next (some g2) st2 tr) :
    g2.OverlayImageBytes ≠ none ∧
      ∀ p b ok, FsEvent.writeFile p b ok ∈ tr → b ≠ none := by
  unfold processGame at hStep
  cases hd : downloadStage env dir st g with
  | error msg => rw [hd] at hStep; cases hStep
  | ok p =>
    obtain ⟨st1, og⟩ := p
    rw [hd] at hStep
    cases og with
    | none => cases hStep
    | some g1 =>
      simp only [] at hStep
      have hclean : g1.CleanImageBytes ≠ none := by
        rcases downloadStage_ok_some env dir st st1 g g1 hd with
          ⟨hs, h1, _⟩ | ⟨_, hfound, ⟨fs, hcall⟩, _⟩
        · rw [h1]; exact hInv hs
        · exact hDl fs g1 hcall hfound
      cases hs : saveStage env dir (overlayStage env overlays st1 g1).1 with
      | error pe => obtain ⟨a, b⟩ := pe; rw [hs] at hStep; cases hStep
      | ok tr1 =>
        rw [hs] at hStep
        cases hStep
        obtain ⟨_, _, _, hOB⟩ := overlayStage_game env overlays st1 g1
        refine ⟨hOB hclean, ?_⟩
        obtain ⟨hne, htr⟩ := saveStage_ok_events _ _ _ _ hs
        rw [htr]
        intro p b ok hmem
        simp at hmem
        obtain ⟨hp, hb, hok⟩ := hmem
        rw [hb]
        exact hOB hclean

/-- The published form of `gFresh` under `envOk` and `ovs`. -/
def gFreshPub : Game :=
  { ID := "42", Name := "Foo", Category := "Indie",
    CleanImageBytes := some [1, 2], OverlayImageBytes := some [1, 2, 9],
    ImageExt := ".jpg", ImageSource := "official" }

/-- The summary after processing `gFresh` under `envOk` and `ovs`. -/
def stFreshPub : SummaryState :=
  { nOverlaysApplied := 1, nDownloaded := 1, notFounds := [],
    searchedGames := [], failedGames := [], errorMessages := [] }

/-- The events of processing `gFresh` under `envOk` and `ovs`. -/
def trFreshPub : List FsEvent :=
  [FsEvent.backupWrite "N/originals/42.jpg" (some [1, 2]),
   FsEvent.writeFile "N/42.jpg" (some [1, 2, 9]) true]

/-- Witness for C1 at a concrete environment and game. -/
theorem C1_witness :
    processGame envOk ovs "N" SummaryState.init gFresh =
        .next (some gFreshPub) stFreshPub trFreshPub ∧
      gFreshPub.OverlayImageBytes ≠ none :=
  ⟨rfl,
    (C1_published_image_never_absent envOk ovs "N" SummaryState.init
      stFreshPub gFresh gFreshPub trFreshPub
      (fun h => absurd rfl h)
      (by intro fs g1 h hs
          simp only [envOk, Except.ok.injEq, Prod.mk.injEq] at h
          obtain ⟨h1, h2⟩ := h
          rw [← h2]
          simp)
      rfl).1⟩

/-- C7: when the (post-download) game's category has no entry in the overlay
mapping and the game entered the overlay stage with OverlayImageBytes
absent, the published game's OverlayImageBytes equals its CleanImageBytes
exactly, and the bytes carried by the staging-grid file write are exactly
the clean bytes. -/
theorem C7_no_overlay_entry_publishes_clean (env : Env)
    (overlays : List (String × Bytes)) (dir : String)
    (st st1 st2 : SummaryState) (g g1 g2 : Game) (tr : List FsEvent)
    (hDl : downloadStage env dir st g = .ok (st1, some g1))
    (hOv : overlayFor overlays g1.Category = none)
    (hOB : g1.OverlayImageBytes = none)
    (hStep : processGame env overlays dir st g = .next (some g2) st2 tr) :
    g2.OverlayImageBytes = g1.CleanImageBytes ∧
      g2.CleanImageBytes = g1.CleanImageBytes ∧
      ∀ p b ok, FsEvent.writeFile p b ok ∈ tr → b = g1.CleanImageBytes := by
  have hApply : ApplyOverlay env.compose overlays g1 = .ok g1 := by
    unfold ApplyOverlay; rw [hOv]
  have hOS : overlayStage env overlays st1 g1 =
      ({ g1 with OverlayImageBytes := g1.CleanImageBytes }, st1) := by
    unfold overlayStage
    rw [hApply]
    simp [hOB]
  unfold processGame at hStep
  rw [hDl] at hStep
  simp only [] at hStep
  rw [hOS] at hStep
  simp only [] at hStep
  cases hs : saveStage env dir
      { g1 with OverlayImageBytes := g1.CleanImageBytes } with
  | error pe => obtain ⟨a, b⟩ := pe; rw [hs] at hStep; cases hStep
  | ok tr1 =>
    rw [hs] at hStep
    cases hStep
    obtain ⟨hne, htr⟩ := saveStage_ok_events _ _ _ _ hs
    refine ⟨rfl, rfl, ?_⟩
    rw [htr]
    intro p b ok hmem
    simp at hmem
    obtain ⟨hp, hb, hok⟩ := hmem
    rw [hb]

/-- The published form of `gLoaded` under `envOk` and `ovs`: the clean image
unmodified. -/
def gLoadedPub : Game :=
  { ID := "7", Name := "Bar", Category := "Action",
    CleanImageBytes := some [3, 4], OverlayImageBytes := some [3, 4],
    ImageExt := ".png", ImageSource := "loaded from file" }

/-- Witness for C7 at a concrete environment and game. -/
theorem C7_witness :
    processGame envOk ovs "N" SummaryState.init gLoaded =
        .next (some gLoadedPub) SummaryState.init
          [FsEvent.backupWrite "N/originals/7.png" (some [3, 4]),
           FsEvent.writeFile "N/7.png" (some [3, 4]) true] ∧
      gLoadedPub.OverlayImageBytes = gLoaded.CleanImageBytes :=
  ⟨rfl,
    (C7_no_overlay_entry_publishes_clean envOk ovs "N" SummaryState.init
      SummaryState.init SummaryState.init gLoaded gLoaded gLoadedPub
      [FsEvent.backupWrite "N/originals/7.png" (some [3, 4]),
       FsEvent.writeFile "N/7.png" (some [3, 4]) true]
      rfl rfl rfl rfl).1⟩

/-- A successful download stage never touches the failed-game or
error-message lists. -/
theorem downloadStage_ok_lists (env : Env) (dir : String)
    (st st1 : SummaryState) (g : Game) (og : Option Game)
    (h : downloadStage env dir st g = .ok (st1, og)) :
    st1.failedGames = st.failedGames ∧
      st1.errorMessages = st.errorMessages := by
  unfold downloadStage at h
  split at h
  · split at h
    · cases h
    · next fs g1x hcall =>
      split at h
      · cases h; exact ⟨rfl, rfl⟩
      · cases h
        by_cases hfs : fs = true <;> simp [hfs]
  · cases h; exact ⟨rfl, rfl⟩

/-- A non-fatal loop iteration grows `failedGames` and `errorMessages` by
the same amount. -/
theorem processGame_lengths (env : Env) (overlays : List (String × Bytes))
    (dir : String) (st st1 : SummaryState) (g : Game) (r : Option Game)
    (tr : List FsEvent)
    (h : processGame env overlays dir st g = .next r st1 tr) :
    st1.failedGames.length + st.errorMessages.length =
      st1.errorMessages.length + st.failedGames.length := by
  unfold processGame at h
  cases hd : downloadStage env dir st g with
  | error msg => rw [hd] at h; cases h
  | ok p =>
    obtain ⟨stA, og⟩ := p
    rw [hd] at h
    obtain ⟨hF, hE⟩ := downloadStage_ok_lists env dir st stA g og hd
    cases og with
    | none => cases h; rw [hF, hE]; omega
    | some g1 =>
      simp only [] at h
      cases hs : saveStage env dir (overlayStage env overlays stA g1).1 with
      | error pe => obtain ⟨a, b⟩ := pe; rw [hs] at h; cases h
      | ok tr1 =>
        rw [hs] at h
        cases h
        obtain ⟨_, _, _, hLen⟩ := overlayStage_summary env overlays stA g1
        rw [hF, hE] at hLen
        omega

/-- The per-game loop preserves the lockstep growth of `failedGames` and
`errorMessages` across a whole game list. -/
theorem processGames_lengths (env : Env) (overlays : List (String × Bytes))
    (dir : String) :
    ∀ (gs : List Game) (st st' : SummaryState) (tr : List FsEvent),
      processGames env overlays dir st gs = .ok (st', tr) →
      st'.failedGames.length + st.errorMessages.length =
        st'.errorMessages.length + st.failedGames.length := by
  intro gs
  induction gs with
  | nil => intro st st' tr h; cases h; omega
  | cons g rest ih =>
    intro st st' tr h
    rw [processGames_cons] at h
    cases hg : processGame env overlays dir st g with
    | fatal e tr1 => rw [hg] at h; cases h
    | next r st1 tr1 =>
      rw [hg] at h
      simp only [] at h
      cases hr : processGames env overlays dir st1 rest with
      | error p => obtain ⟨a, b⟩ := p; rw [hr] at h; cases h
      | ok p =>
        obtain ⟨st2, tr2⟩ := p
        rw [hr] at h
        cases h
        have h1 := processGame_lengths env overlays dir st st1 g r tr1 hg
        have h2 := ih st1 _ tr2 hr
        omega

/-- A successful profile run preserves the lockstep growth of `failedGames`
and `errorMessages`. -/
theorem processUser_lengths (env : Env) (overlays : List (String × Bytes))
    (st st' : SummaryState) (gridDir : String) (games : List Game)
    (tr : List FsEvent)
    (h : processUser env overlays st gridDir games = .ok (st', tr)) :
    st'.failedGames.length + st.errorMessages.length =
      st'.errorMessages.length + st.failedGames.length := by
  unfold processUser at h
  split at h
  · cases hG : processGames env overlays (newGridDirOf gridDir) st games with
    | error p => obtain ⟨a, b⟩ := p; rw [hG] at h; cases h
    | ok p =>
      obtain ⟨st1, gtr⟩ := p
      rw [hG] at h
      simp only [] at h
      split at h
      · split at h
        · cases h
          exact processGames_lengths env overlays (newGridDirOf gridDir)
            games st _ gtr hG
        · cases h
      · cases h
  · cases h

/-- The whole multi-profile run preserves the lockstep growth of
`failedGames` and `errorMessages`. -/
theorem processUsers_lengths (env : Env) (overlays : List (String × Bytes)) :
    ∀ (users : List (String × List Game)) (st st' : SummaryState)
      (tr : List FsEvent),
      processUsers env overlays st users = .ok (st', tr) →
      st'.failedGames.length + st.errorMessages.length =
        st'.errorMessages.length + st.failedGames.length := by
  intro users
  induction users with
  | nil => intro st st' tr h; cases h; omega
  | cons u rest ih =>
    intro st st' tr h
    obtain ⟨gridDir, games⟩ := u
    unfold processUsers at h
    cases hu : processUser env overlays st gridDir games with
    | error p => rw [hu] at h; cases h
    | ok p =>
      obtain ⟨st1, tr1⟩ := p
      rw [hu] at h
      simp only [] at h
      cases hr : processUsers env overlays st1 rest with
      | error p2 => obtain ⟨a, b⟩ := p2; rw [hr] at h; cases h
      | ok p2 =>
        obtain ⟨st2, tr2⟩ := p2
        rw [hr] at h
        cases h
        have h1 := processUser_lengths env overlays st st1 gridDir games tr1 hu
        have h2 := ih st1 _ tr2 hr
        omega

/-- C10: a game is appended to `failedGames` exactly when a message is
appended to `errorMessages`, so from any aligned starting summary (in
particular the empty one) every summary a run can reach keeps
`failedGames` and `errorMessages` of equal length, and indexing
`errorMessages` by a `failedGames` index in the end-of-run report is in
bounds. -/
theorem C10_failed_and_messages_aligned (env : Env)
    (overlays : List (String × Bytes)) (users : List (String × List Game))
    (st st' : SummaryState) (tr : List FsEvent)
    (hLen : st.failedGames.length = st.errorMessages.length)
    (h : processUsers env overlays st users = .ok (st', tr)) :
    st'.failedGames.length = st'.errorMessages.length := by
  have h1 := processUsers_lengths env overlays users st st' tr h
  omega

/-- The events of a full successful one-profile run on `gFresh`. -/
def trGamesRun : List FsEvent :=
  [FsEvent.backupWrite "d/config/grid new/originals/42.jpg" (some [1, 2]),
   FsEvent.writeFile "d/config/grid new/42.jpg" (some [1, 2, 9]) true]

/-- The whole event trace of a one-profile run on `gFresh`, swap included. -/
def trUserRun : List FsEvent :=
  [FsEvent.mkdirAll "d/config/grid new/originals",
   FsEvent.backupWrite "d/config/grid new/originals/42.jpg" (some [1, 2]),
   FsEvent.writeFile "d/config/grid new/42.jpg" (some [1, 2, 9]) true,
   FsEvent.removeAll "d/config/grid",
   FsEvent.rename "d/config/grid new" "d/config/grid"]

/-- Witness for C10 at a concrete full run. -/
theorem C10_witness :
    SummaryState.init.failedGames.length =
        SummaryState.init.errorMessages.length ∧
      stFreshPub.failedGames.length = stFreshPub.errorMessages.length :=
  ⟨rfl,
    C10_failed_and_messages_aligned envOk ovs [("d/config/grid", [gFresh])]
      SummaryState.init stFreshPub trUserRun rfl rfl⟩

/-- Environment whose download oracle resolves games through the fallback
search and whose compositor rejects the image bytes. -/
def envSearchFail : Env :=
  { envOk with
    download := fun _ g =>
      .ok (true, { g with ImageSource := "search",
                          CleanImageBytes := some [1], ImageExt := ".jpg" }),
    compose := fun _ _ => .error "corrupt image" }

/-- `gFresh` as returned by the fallback search. -/
def gSearchFound : Game :=
  { ID := "42", Name := "Foo", Category := "Indie",
    CleanImageBytes := some [1], OverlayImageBytes := none,
    ImageExt := ".jpg", ImageSource := "search" }

/-- The summary after processing `gFresh` under `envSearchFail`: the game
sits in the found-via-search bucket and in the overlay-failed bucket at the
same time. -/
def stSearchBoth : SummaryState :=
  { nOverlaysApplied := 0, nDownloaded := 1, notFounds := [],
    searchedGames := [gSearchFound], failedGames := [gSearchFound],
    errorMessages := ["corrupt image"] }

/-- Counterexample to C9 as stated: a game resolved via the fallback search
whose overlay application then fails appears in the found-via-search bucket
and in the overlay-failed bucket simultaneously, not "in no other summary
bucket". -/
theorem C9_counterexample :
    (processGame envSearchFail ovs "N" SummaryState.init gFresh).summary? =
        some stSearchBoth ∧
      gSearchFound ∈ stSearchBoth.searchedGames ∧
      gSearchFound ∈ stSearchBoth.failedGames :=
  ⟨rfl, by simp [stSearchBoth], by simp [stSearchBoth]⟩

/-- C9 (amended): a game resolved via the fallback search is appended to the
found-via-search bucket and never to the not-found bucket; it may however
additionally be appended to the overlay-failed bucket when its overlay
application fails. -/
theorem C9_amended_search_bucket (env : Env)
    (overlays : List (String × Bytes)) (dir : String)
    (st st' : SummaryState) (g g1 : Game) (r : Option Game)
    (tr : List FsEvent)
    (hSrc : g.ImageSource = "")
    (hDl : env.download dir g = .ok (true, g1))
    (hFound : g1.ImageSource ≠ "")
    (hStep : processGame env overlays dir st g = .next r st' tr) :
    st'.searchedGames = st.searchedGames ++ [g1] ∧
      st'.notFounds = st.notFounds := by
  have hDS : downloadStage env dir st g =
      .ok ({ st with nDownloaded := st.nDownloaded + 1,
                     searchedGames := st.searchedGames ++ [g1] },
           some g1) := by
    unfold downloadStage
    simp [hSrc, hDl, hFound]
  unfold processGame at hStep
  rw [hDS] at hStep
  simp only [] at hStep
  obtain ⟨hNF, hSG, _, _⟩ := overlayStage_summary env overlays
    { st with nDownloaded := st.nDownloaded + 1,
              searchedGames := st.searchedGames ++ [g1] } g1
  cases hs : saveStage env dir (overlayStage env overlays
      { st with nDownloaded := st.nDownloaded + 1,
                searchedGames := st.searchedGames ++ [g1] } g1).1 with
  | error pe => obtain ⟨a, b⟩ := pe; rw [hs] at hStep; cases hStep
  | ok tr1 =>
    rw [hs] at hStep
    cases hStep
    exact ⟨hSG, hNF⟩

/-- Environment whose download oracle resolves games through the fallback
search, with a working compositor. -/
def envSearchOk : Env :=
  { envOk with
    download := fun _ g =>
      .ok (true, { g with ImageSource := "search",
                          CleanImageBytes := some [1], ImageExt := ".jpg" }) }

/-- The summary after processing `gFresh` under `envSearchOk`. -/
def stSearchOk : SummaryState :=
  { nOverlaysApplied := 1, nDownloaded := 1, notFounds := [],
    searchedGames := [gSearchFound], failedGames := [], errorMessages := [] }

/-- Witness for the amended C9 at a concrete environment and game. -/
theorem C9_witness :
    stSearchOk.searchedGames = SummaryState.init.searchedGames ++
        [gSearchFound] ∧
      stSearchOk.notFounds = SummaryState.init.notFounds :=
  C9_amended_search_bucket envSearchOk ovs "N" SummaryState.init stSearchOk
    gFresh gSearchFound
    (some { gSearchFound with OverlayImageBytes := some [1, 9] })
    [FsEvent.backupWrite "N/originals/42.jpg" (some [1]),
     FsEvent.writeFile "N/42.jpg" (some [1, 9]) true]
    rfl rfl (by decide) rfl

/-- Environment in which the final image write always fails. -/
def envWriteFail : Env := { envOk with writeOk := fun _ _ => false }

/-- Counterexample to C8 as stated: when the final image write fails, the
loop step still continues (is `.next`), the failed write is recorded, but
the summary is completely unchanged — the game is not added to any summary
bucket. -/
theorem C8_counterexample :
    processGame envWriteFail ovs "N" SummaryState.init gLoaded =
        .next (some gLoadedPub) SummaryState.init
          [FsEvent.backupWrite "N/originals/7.png" (some [3, 4]),
           FsEvent.writeFile "N/7.png" (some [3, 4]) false] ∧
      SummaryState.init.failedGames = [] ∧
      SummaryState.init.notFounds = [] ∧
      SummaryState.init.searchedGames = [] :=
  ⟨rfl, rfl, rfl, rfl⟩

/-- C8 (amended): the success or failure of the final staging-file write has
no influence on the run: the loop step aborts in exactly the same cases and
produces exactly the same summary (so a failed write is only logged and
processing continues to the next game, without the game entering any
summary bucket). -/
theorem C8_amended_write_failure_only_logged (env : Env)
    (overlays : List (String × Bytes)) (dir : String) (st : SummaryState)
    (g : Game) :
    (processGame { env with writeOk := fun _ _ => false }
        overlays dir st g).summary? =
      (processGame env overlays dir st g).summary? ∧
    (processGame { env with writeOk := fun _ _ => false }
        overlays dir st g).isFatal =
      (processGame env overlays dir st g).isFatal := by
  have hD : downloadStage { env with writeOk := fun _ _ => false } dir st g =
      downloadStage env dir st g := rfl
  unfold processGame
  rw [hD]
  cases hd : downloadStage env dir st g with
  | error msg => exact ⟨rfl, rfl⟩
  | ok p =>
    obtain ⟨st1, og⟩ := p
    cases og with
    | none => exact ⟨rfl, rfl⟩
    | some g1 =>
      simp only []
      have hO : overlayStage { env with writeOk := fun _ _ => false }
          overlays st1 g1 = overlayStage env overlays st1 g1 := rfl
      rw [hO]
      unfold saveStage
      have hB : ({ env with writeOk := fun _ _ => false } : Env).backup =
          env.backup := rfl
      rw [hB]
      cases hb : env.backup dir (overlayStage env overlays st1 g1).1 with
      | error e => exact ⟨rfl, rfl⟩
      | ok u =>
        by_cases hext : (overlayStage env overlays st1 g1).1.ImageExt = "" <;>
          simp [hext, GameStep.summary?, GameStep.isFatal]

/-- Counterexample to C6 as stated: a game reaching the publish step with an
empty ImageExt does abort the run, but only after `BackupGame` ran — the
abort trace already contains a staging-file write for that game (the clean
backup), so the abort does not happen before any of that game's files are
written. -/
theorem C6_counterexample :
    processGame envOk ovs "N" SummaryState.init gNoExt =
        .fatal "Failed to identify image format."
          [FsEvent.backupWrite "N/originals/9" (some [5])] ∧
      FsEvent.isGameWrite (FsEvent.backupWrite "N/originals/9" (some [5])) =
        true :=
  ⟨rfl, rfl⟩

/-- C6 (amended): a game that reaches the publish step with an empty
ImageExt makes the loop step fatal — the run aborts before the final grid
image is written (no `writeFile` event is ever emitted for it), though the
`BackupGame` clean backup may already have been written. -/
theorem C6_amended_empty_ext_fatal (env : Env)
    (overlays : List (String × Bytes)) (dir : String) (st : SummaryState)
    (g : Game)
    (hSrc : g.ImageSource ≠ "") (hExt : g.ImageExt = "") :
    (processGame env overlays dir st g).isFatal = true ∧
      ∀ p b ok,
        FsEvent.writeFile p b ok ∉ (processGame env overlays dir st g).trace := by
  have hDS : downloadStage env dir st g = .ok (st, some g) := by
    unfold downloadStage
    simp [hSrc]
  obtain ⟨_, hOSExt, _, _⟩ := overlayStage_game env overlays st g
  unfold processGame
  rw [hDS]
  simp only []
  cases hs : saveStage env dir (overlayStage env overlays st g).1 with
  | error pe =>
    obtain ⟨e, tr⟩ := pe
    refine ⟨rfl, ?_⟩
    intro p b ok hmem
    simp [GameStep.trace] at hmem
    rcases saveStage_error_events _ _ _ _ _ hs with h0 | ⟨_, _, h1⟩
    · rw [h0] at hmem; simp at hmem
    · rw [h1] at hmem; simp at hmem
  | ok tr =>
    obtain ⟨hne, _⟩ := saveStage_ok_events _ _ _ _ hs
    rw [hOSExt] at hne
    exact absurd hExt hne

/-- Witness for the amended C6 at a concrete environment and game. -/
theorem C6_witness :
    (processGame envOk ovs "N" SummaryState.init gNoExt).isFatal = true ∧
      FsEvent.writeFile "N/9" (some [5]) true ∉
        (processGame envOk ovs "N" SummaryState.init gNoExt).trace :=
  ⟨(C6_amended_empty_ext_fatal envOk ovs "N" SummaryState.init gNoExt
      (by decide) rfl).1,
   (C6_amended_empty_ext_fatal envOk ovs "N" SummaryState.init gNoExt
      (by decide) rfl).2 "N/9" (some [5]) true⟩

/-- Environment in which the directory rename fails. -/
def envRenameFail : Env := { envOk with renameOk := fun _ _ => false }

/-- Counterexample to C2 as stated: the staging directory is fully written
(the game's final write succeeded), the swap then fails at the rename step,
and the abort trace shows the live grid directory was already removed — the
original does not remain intact. -/
theorem C2_counterexample :
    processUser envRenameFail ovs SummaryState.init "d/config/grid"
        [gLoaded] =
      .error ("Failed to move new grid dir to correct location:",
        [FsEvent.mkdirAll "d/config/grid new/originals",
         FsEvent.backupWrite "d/config/grid new/originals/7.png" (some [3, 4]),
         FsEvent.writeFile "d/config/grid new/7.png" (some [3, 4]) true,
         FsEvent.removeAll "d/config/grid"]) ∧
      FsEvent.removeAll "d/config/grid" ∈
        [FsEvent.mkdirAll "d/config/grid new/originals",
         FsEvent.backupWrite "d/config/grid new/originals/7.png" (some [3, 4]),
         FsEvent.writeFile "d/config/grid new/7.png" (some [3, 4]) true,
         FsEvent.removeAll "d/config/grid"] :=
  ⟨rfl, by simp⟩

/-- C2 (amended): when the profile run fails, the staging directory is never
renamed into place, and the live grid directory has been removed only if
the failure happened at the rename step — so the original is guaranteed
intact only when the failure occurred before the removal step. -/
theorem C2_amended_failed_swap (env : Env)
    (overlays : List (String × Bytes)) (st : SummaryState)
    (gridDir : String) (games : List Game) (e : String) (tr : List FsEvent)
    (h : processUser env overlays st gridDir games = .error (e, tr)) :
    (∀ s d, FsEvent.rename s d ∉ tr) ∧
      (FsEvent.removeAll gridDir ∈ tr →
        e = "Failed to move new grid dir to correct location:") := by
  unfold processUser at h
  split at h
  · cases hG : processGames env overlays (newGridDirOf gridDir) st games with
    | error p =>
      obtain ⟨msg, gtr⟩ := p
      rw [hG] at h
      cases h
      have hw := processGames_trace_writes env overlays (newGridDirOf gridDir)
        games st
      rw [hG] at hw
      simp only [runTrace] at hw
      constructor
      · intro s d hmem
        simp at hmem
        have := hw _ hmem
        simp [FsEvent.isGameWrite] at this
      · intro hmem
        simp at hmem
        have := hw _ hmem
        simp [FsEvent.isGameWrite] at this
    | ok p =>
      obtain ⟨st1, gtr⟩ := p
      rw [hG] at h
      simp only [] at h
      have hw := processGames_trace_writes env overlays (newGridDirOf gridDir)
        games st
      rw [hG] at hw
      simp only [runTrace] at hw
      split at h
      · split at h
        · cases h
        · cases h
          constructor
          · intro s d hmem
            simp at hmem
            have := hw _ hmem
            simp [FsEvent.isGameWrite] at this
          · intro _
            rfl
      · cases h
        constructor
        · intro s d hmem
          simp at hmem
          have := hw _ hmem
          simp [FsEvent.isGameWrite] at this
        · intro hmem
          simp at hmem
          have := hw _ hmem
          simp [FsEvent.isGameWrite] at this
  · cases h
    constructor
    · intro s d hmem
      simp at hmem
    · intro hmem
      simp at hmem

/-- Witness for the amended C2 at a concrete failing swap. -/
theorem C2_witness :
    (∀ s d, FsEvent.rename s d ∉
        [FsEvent.mkdirAll "d/config/grid new/originals",
         FsEvent.backupWrite "d/config/grid new/originals/7.png" (some [3, 4]),
         FsEvent.writeFile "d/config/grid new/7.png" (some [3, 4]) true,
         FsEvent.removeAll "d/config/grid"]) ∧
      (FsEvent.removeAll "d/config/grid" ∈
          [FsEvent.mkdirAll "d/config/grid new/originals",
           FsEvent.backupWrite "d/config/grid new/originals/7.png"
             (some [3, 4]),
           FsEvent.writeFile "d/config/grid new/7.png" (some [3, 4]) true,
           FsEvent.removeAll "d/config/grid"] →
        "Failed to move new grid dir to correct location:" =
          "Failed to move new grid dir to correct location:") :=
  C2_amended_failed_swap envRenameFail ovs SummaryState.init "d/config/grid"
    [gLoaded] "Failed to move new grid dir to correct location:"
    [FsEvent.mkdirAll "d/config/grid new/originals",
     FsEvent.backupWrite "d/config/grid new/originals/7.png" (some [3, 4]),
     FsEvent.writeFile "d/config/grid new/7.png" (some [3, 4]) true,
     FsEvent.removeAll "d/config/grid"] rfl

/-- C3: a successful profile run performs its effects in this exact order:
the staging directory is created, every game-processing event (all of them
staging-file writes) happens, only then the live grid directory is removed,
and immediately afterwards the staging directory `gridDir + " new"` is
renamed into the old directory's place. -/
theorem C3_swap_after_all_games (env : Env)
    (overlays : List (String × Bytes)) (st st' : SummaryState)
    (gridDir : String) (games : List Game) (tr : List FsEvent)
    (h : processUser env overlays st gridDir games = .ok (st', tr)) :
    ∃ gtr,
      processGames env overlays (newGridDirOf gridDir) st games =
        .ok (st', gtr) ∧
      tr = FsEvent.mkdirAll (newGridDirOf gridDir ++ "/originals") ::
        gtr ++ [FsEvent.removeAll gridDir,
                FsEvent.rename (newGridDirOf gridDir) gridDir] ∧
      ∀ e ∈ gtr, e.isGameWrite = true := by
  unfold processUser at h
  split at h
  · cases hG : processGames env overlays (newGridDirOf gridDir) st games with
    | error p =>
      obtain ⟨msg, gtr⟩ := p
      rw [hG] at h
      cases h
    | ok p =>
      obtain ⟨st1, gtr⟩ := p
      rw [hG] at h
      simp only [] at h
      split at h
      · split at h
        · simp only [Except.ok.injEq, Prod.mk.injEq] at h
          obtain ⟨h5, h6⟩ := h
          subst h5
          subst h6
          refine ⟨gtr, hG ▸ rfl, rfl, ?_⟩
          intro e he
          have hw := processGames_trace_writes env overlays
            (newGridDirOf gridDir) games st
          rw [hG] at hw
          simp only [runTrace] at hw
          exact hw e he
        · cases h
      · cases h
  · cases h

/-- Witness for C3 at a concrete full one-profile run. -/
theorem C3_witness :
    trUserRun =
      FsEvent.mkdirAll (newGridDirOf "d/config/grid" ++ "/originals") ::
        trGamesRun ++
        [FsEvent.removeAll "d/config/grid",
         FsEvent.rename (newGridDirOf "d/config/grid") "d/config/grid"] := by
  obtain ⟨gtr, h1, h2, h3⟩ :=
    C3_swap_after_all_games envOk ovs SummaryState.init stFreshPub
      "d/config/grid" [gFresh] trUserRun rfl
  have h0 : processGames envOk ovs (newGridDirOf "d/config/grid")
      SummaryState.init [gFresh] = .ok (stFreshPub, trGamesRun) := rfl
  have h4 := h0.symm.trans h1
  simp only [Except.ok.injEq, Prod.mk.injEq] at h4
  obtain ⟨h5, h6⟩ := h4
  rw [h2, ← h6]
